import Mathlib

/-!
Verification development for the riak-migrator tool (src/main.go).

The program moves records of a key-value store organised as
bucket type / bucket / key, in five modes: live sync, backup to file,
backup to stdout (one JSON line per record), restore from backup files,
restore from stdin.  Go strings and byte slices are embedded as lists of
byte values (`List Nat`, each element < 256, written as numeric
literals with the ASCII text in a comment); HTTP requests are embedded
by the URL path and body the program builds; the file system and the
stores are parameters (lists of paths, status-code functions).
-/

namespace RiakMigrator

/-- A Go string / byte slice, as its list of byte values. -/
abbrev GoStr := List Nat

/-- All elements are byte values.  Go strings satisfy this by construction. -/
def ValidBytes (s : GoStr) : Prop := ∀ b ∈ s, b < 256

instance : DecidablePred ValidBytes := fun s =>
  inferInstanceAs (Decidable (∀ b ∈ s, b < 256))

/-! ## net/url.QueryEscape (used by syncKey, src/main.go line 165) -/

/-- Alphanumeric ASCII byte. -/
def isAlnumByte (b : Nat) : Bool :=
  (48 ≤ b && b ≤ 57) || (65 ≤ b && b ≤ 90) || (97 ≤ b && b ≤ 122)

/-- Bytes url.QueryEscape leaves unchanged: alphanumerics and `-`, `_`, `.`, `~`. -/
def unreservedQuery (b : Nat) : Bool :=
  isAlnumByte b || b == 45 || b == 95 || b == 46 || b == 126

/-- Byte values of the sixteen upper-case hexadecimal digits 0-9, A-F. -/
def hexDigitsUpper : GoStr := [48, 49, 50, 51, 52, 53, 54, 55, 56, 57, 65, 66, 67, 68, 69, 70]

/-- Upper-case hexadecimal digit byte of `n < 16` (Go's upperhex table). -/
def hexUpper (n : Nat) : Nat := hexDigitsUpper.getD n 48

/-- Escaping of one byte by url.QueryEscape: unreserved bytes kept,
space becomes `+`, every other byte becomes `%XX`. -/
def escByteQuery (b : Nat) : GoStr :=
  if unreservedQuery b then [b]
  else if b = 32 then [43]
  else [37, hexUpper (b / 16), hexUpper (b % 16)]

/-- net/url.QueryEscape over a byte string. -/
def queryEscape (s : GoStr) : GoStr := s.flatMap escByteQuery

/-- Value of an upper-case hexadecimal digit byte (16 when not a digit). -/
def hexValUp (c : Nat) : Nat := hexDigitsUpper.findIdx (fun d => d = c)

/-- Left inverse of `queryEscape`: decodes `%XX` triples and `+`.
Used only to establish that escaping is injective / loses no information. -/
def queryUnescapeLI : GoStr → GoStr
  | [] => []
  | 37 :: h1 :: h2 :: rest => (hexValUp h1 * 16 + hexValUp h2) :: queryUnescapeLI rest
  | 43 :: rest => 32 :: queryUnescapeLI rest
  | c :: rest => c :: queryUnescapeLI rest

/-! ## Slash-separated paths

`filepath.Join` (used for the backup layout, src/main.go lines 75, 87, 105,
181) joins its arguments with `/` (the separator on the platform the tool
targets) and then applies `path.Clean`; `strings.Split(path, "/")` (line 306)
splits on every slash.  `cleanStack` implements Clean's element rules for
relative paths: empty and `.` elements are dropped, `..` pops the previous
element when one exists. -/

/-- strings.Split(s, "/"). -/
def splitSlash : GoStr → List GoStr
  | [] => [[]]
  | c :: rest =>
    if c = 47 then [] :: splitSlash rest
    else
      match splitSlash rest with
      | [] => [[c]]
      | s :: ss => (c :: s) :: ss

/-- strings.Join(segs, "/"). -/
def joinSegs : List GoStr → GoStr
  | [] => []
  | [s] => s
  | s :: rest => s ++ 47 :: joinSegs rest

/-- path.Clean element processing (relative paths): builds the reversed
list of surviving path elements.  Empty and `.` elements are dropped,
`..` pops the previous element when one exists. -/
def cleanStack : List GoStr → List GoStr → List GoStr
  | [], acc => acc
  | s :: rest, acc =>
    if s = [] ∨ s = [46] then cleanStack rest acc
    else if s = [46, 46] then
      match acc with
      | [] => cleanStack rest [s]
      | t :: acc2 => if t = [46, 46] then cleanStack rest (s :: acc) else cleanStack rest acc2
    else cleanStack rest (s :: acc)

/-- filepath.Join(root, parts...) on a Unix target: concatenate with `/`
and clean the result. -/
def cleanJoin (root : GoStr) (parts : List GoStr) : GoStr :=
  joinSegs ((cleanStack ((root :: parts).flatMap splitSlash) []).reverse)

/-- A plain path element: nonempty, not `.` or `..`, and slash-free. -/
def NormalSeg (s : GoStr) : Prop := s ≠ [] ∧ s ≠ [46] ∧ s ≠ [46, 46] ∧ 47 ∉ s

instance : DecidablePred NormalSeg := fun s => by unfold NormalSeg; infer_instance

/-- A relative path all of whose slash-separated elements are plain. -/
def NormalPath (p : GoStr) : Prop := ∀ s ∈ splitSlash p, NormalSeg s

instance : DecidablePred NormalPath := fun p => by unfold NormalPath; infer_instance

/-! ## The serialized record

The anonymous struct marshalled in syncKey (src/main.go lines 190-197)
and unmarshalled in restoreFromBackup and restoreFromStdin:
bucket_type, bucket, key as strings and value as a byte slice.
encoding/json is an external primitive for this repository; it is
modelled here concretely for the byte strings the tool produces:
compact output in declared field order, strings escaped as Go's
encoder does (with HTML escaping on), the byte-slice value as a
standard base64 string. -/

structure KV where
  bucketType : GoStr
  bucket : GoStr
  key : GoStr
  value : GoStr
deriving DecidableEq

/-- Byte values of the sixteen lower-case hexadecimal digits. -/
def hexDigitsLower : GoStr := [48, 49, 50, 51, 52, 53, 54, 55, 56, 57, 97, 98, 99, 100, 101, 102]

/-- Lower-case hexadecimal digit byte of `n < 16`. -/
def hexLower (n : Nat) : Nat := hexDigitsLower.getD n 48

/-- Value of a lower-case hexadecimal digit byte (16 when not a digit). -/
def hexValLow (c : Nat) : Nat := hexDigitsLower.findIdx (fun d => d = c)

/-- encoding/json escaping of one string byte (HTML escaping enabled,
as json.Marshal does by default): quote, backslash, newline, carriage
return and tab get two-byte escapes, the other control bytes and
`<`, `>`, `&` become `\u00xx`, everything else is copied. -/
def escByteJSON (b : Nat) : GoStr :=
  if b = 34 then [92, 34]
  else if b = 92 then [92, 92]
  else if b = 10 then [92, 110]
  else if b = 13 then [92, 114]
  else if b = 9 then [92, 116]
  else if b < 32 ∨ b = 60 ∨ b = 62 ∨ b = 38 then [92, 117, 48, 48, hexLower (b / 16), hexLower (b % 16)]
  else [b]

/-- encoding/json escaping of a whole string. -/
def escString (s : GoStr) : GoStr := s.flatMap escByteJSON

/-- The byte named by a single-letter JSON escape code. -/
def escCodeVal (e : Nat) : Option Nat :=
  if e = 34 then some 34
  else if e = 92 then some 92
  else if e = 47 then some 47
  else if e = 98 then some 8
  else if e = 102 then some 12
  else if e = 110 then some 10
  else if e = 114 then some 13
  else if e = 116 then some 9
  else none

/-- JSON string body parser: input begins after the opening quote;
returns the unescaped bytes and the remaining input after the closing
quote.  `\uXXXX` escapes are supported for the `00xx` range the
encoder emits. -/
def parseJSONString : GoStr → Option (GoStr × GoStr)
  | [] => none
  | c :: rest =>
    if c = 34 then some ([], rest)
    else if c = 92 then
      match rest with
      | [] => none
      | e :: rest2 =>
        if e = 117 then
          match rest2 with
          | a :: b :: c2 :: d :: rest3 =>
            if a = 48 ∧ b = 48 ∧ hexValLow c2 < 16 ∧ hexValLow d < 16 then
              (fun p => ((hexValLow c2 * 16 + hexValLow d) :: p.1, p.2)) <$> parseJSONString rest3
            else none
          | _ => none
        else
          match escCodeVal e with
          | some b => (fun p => (b :: p.1, p.2)) <$> parseJSONString rest2
          | none => none
    else (fun p => (c :: p.1, p.2)) <$> parseJSONString rest

/-- The standard base64 alphabet, as byte values. -/
def b64chars : GoStr :=
  [65, 66, 67, 68, 69, 70, 71, 72, 73, 74, 75, 76, 77, 78, 79, 80,
   81, 82, 83, 84, 85, 86, 87, 88, 89, 90,
   97, 98, 99, 100, 101, 102, 103, 104, 105, 106, 107, 108, 109, 110, 111, 112,
   113, 114, 115, 116, 117, 118, 119, 120, 121, 122,
   48, 49, 50, 51, 52, 53, 54, 55, 56, 57, 43, 47]

/-- Character of a six-bit group. -/
def b64char (n : Nat) : Nat := b64chars.getD n 65

/-- Six-bit value of an alphabet character (64 when not in the alphabet). -/
def b64val (c : Nat) : Nat := b64chars.findIdx (fun d => d = c)

/-- encoding/base64 StdEncoding encoding (with `=` padding), as
encoding/json applies it to a byte-slice field. -/
def b64encode : GoStr → GoStr
  | a :: b :: c :: rest =>
    b64char (a / 4) :: b64char (a % 4 * 16 + b / 16) ::
      b64char (b % 16 * 4 + c / 64) :: b64char (c % 64) :: b64encode rest
  | [a, b] => [b64char (a / 4), b64char (a % 4 * 16 + b / 16), b64char (b % 16 * 4), 61]
  | [a] => [b64char (a / 4), b64char (a % 4 * 16), 61, 61]
  | [] => []

/-- encoding/base64 StdEncoding decoding. -/
def b64decode : GoStr → Option GoStr
  | [] => some []
  | w :: x :: y :: z :: rest =>
    if y = 61 ∧ z = 61 ∧ rest = [] then
      if b64val w < 64 ∧ b64val x < 64 then some [b64val w * 4 + b64val x / 16] else none
    else if z = 61 ∧ rest = [] then
      if b64val w < 64 ∧ b64val x < 64 ∧ b64val y < 64 then
        some [b64val w * 4 + b64val x / 16, b64val x % 16 * 16 + b64val y / 4]
      else none
    else
      if b64val w < 64 ∧ b64val x < 64 ∧ b64val y < 64 ∧ b64val z < 64 then
        (fun d => (b64val w * 4 + b64val x / 16) :: (b64val x % 16 * 16 + b64val y / 4) ::
          (b64val y % 4 * 64 + b64val z) :: d) <$> b64decode rest
      else none
  | _ => none

/-- Leading JSON whitespace removal. -/
def dropWS : GoStr → GoStr
  | [] => []
  | c :: rest => if c = 32 ∨ c = 9 ∨ c = 10 ∨ c = 13 then dropWS rest else c :: rest

/-- Strips an expected literal from the front of the input. -/
def dropLead : GoStr → GoStr → Option GoStr
  | [], s => some s
  | _ :: _, [] => none
  | a :: p2, b :: s2 => if a = b then dropLead p2 s2 else none

/-- Bytes of the text between braces: bucket_type quoted-colon-quote,
that is the object opener up to the first string value. -/
def kvHead : GoStr := [123, 34, 98, 117, 99, 107, 101, 116, 95, 116, 121, 112, 101, 34, 58, 34]

/-- Bytes of the separator before the bucket field value. -/
def kvSepBucket : GoStr := [44, 34, 98, 117, 99, 107, 101, 116, 34, 58, 34]

/-- Bytes of the separator before the key field value. -/
def kvSepKey : GoStr := [44, 34, 107, 101, 121, 34, 58, 34]

/-- Bytes of the separator before the value field value. -/
def kvSepValue : GoStr := [44, 34, 118, 97, 108, 117, 101, 34, 58, 34]

/-- json.Marshal of the record struct (src/main.go lines 190-197):
compact object in declared field order, string fields escaped, the
byte-slice value as a base64 string. -/
def jsonMarshalKV (kv : KV) : GoStr :=
  kvHead ++ escString kv.bucketType ++ 34 :: kvSepBucket ++ escString kv.bucket ++
    34 :: kvSepKey ++ escString kv.key ++ 34 :: kvSepValue ++ b64encode kv.value ++ 34 :: [125]

/-- json.Unmarshal into the record struct (src/main.go lines 287-292,
346-353), restricted to the object grammar the backup serializer
emits (fields in declared order; leading and trailing whitespace
tolerated).  Fails on anything else, in particular on empty input. -/
def jsonDecodeKV (line : GoStr) : Option KV := do
  let s1 ← dropLead kvHead (dropWS line)
  let (bt, s2) ← parseJSONString s1
  let s3 ← dropLead kvSepBucket s2
  let (bu, s4) ← parseJSONString s3
  let s5 ← dropLead kvSepKey s4
  let (ke, s6) ← parseJSONString s5
  let s7 ← dropLead kvSepValue s6
  let (vs, s8) ← parseJSONString s7
  let v ← b64decode vs
  let s9 ← dropLead [125] s8
  if dropWS s9 = [] then some (KV.mk bt bu ke v) else none

/-! ## The program model

Each function of src/main.go is embedded as a function from its inputs
(the flag values, the source store's responses, the destination store's
status answers, the file system state) to the list of externally visible
actions it performs and the error it returns (`none` is Go's nil error).
Per-key transfers model the success path where the claims assume it;
status checks are modelled where a claim is about them. -/

/-- A Go error value: either a status-code complaint or a decode failure. -/
inductive GoErr
  | statusErr (code : Nat)
  | decodeErr
deriving DecidableEq

/-- An externally visible action of the tool. -/
inductive Action
  | fetchKeys (bucketType bucket : GoStr)
  | fetchProps (bucketType bucket : GoStr)
  | putProps (bucketType bucket : GoStr)
  | fetchKey (path : GoStr)
  | putKey (path : GoStr) (body : GoStr)
  | writeFile (path : GoStr) (body : GoStr)
  | writeStdout (chunk : GoStr)
deriving DecidableEq

/-- A destination write request: URL path and body. -/
structure PutReq where
  path : GoStr
  body : GoStr
deriving DecidableEq

/-- URL path `/types/T/buckets/B/keys/k` built by fmt.Sprintf in
syncKey (lines 166, 210), restoreFromBackup (line 313) and
restoreFromStdin (line 358); the key segment is inserted exactly as
given (syncKey passes the query-escaped key, the restore paths pass the
recovered key without escaping it again). -/
def keyPath (bucketType bucket keySeg : GoStr) : GoStr :=
  [47, 116, 121, 112, 101, 115, 47] ++ bucketType ++
    [47, 98, 117, 99, 107, 101, 116, 115, 47] ++ bucket ++
    [47, 107, 101, 121, 115, 47] ++ keySeg

/-- The destination write URL the tool issues for a key in live sync:
the key is query-escaped first (line 165). -/
def destKeyURL (bucketType bucket key : GoStr) : GoStr :=
  keyPath bucketType bucket (queryEscape key)

/-- syncKey (lines 164-225) on its success path: escapes the key once
(line 165), fetches the payload, then either writes the backup file
(lines 176-182), writes the record line to stdout in two writes
(lines 184-208), or issues the destination PUT (lines 210-224).
`fetch` maps a source URL path to the payload the source returns. -/
def syncKeyActions (backup backupStdout : Bool) (backupDir bucketType bucket : GoStr)
    (fetch : GoStr → GoStr) (key : GoStr) : List Action :=
  let k := queryEscape key
  let body := fetch (keyPath bucketType bucket k)
  Action.fetchKey (keyPath bucketType bucket k) ::
    (if backup && !backupStdout then
      [Action.writeFile (cleanJoin backupDir [bucketType, bucket, k]) body]
    else if backup && backupStdout then
      [Action.writeStdout (jsonMarshalKV (KV.mk bucketType bucket k body)),
       Action.writeStdout [10]]
    else [Action.putKey (keyPath bucketType bucket k) body])

/-- syncProperties (lines 227-258): source 404 is a logged no-op; any
other non-200 source status is an error before the destination PUT;
the destination PUT is accepted on 204 and 400 and an error otherwise. -/
def syncProperties (bucketType bucket : GoStr) (srcStatus destStatus : Nat) :
    List Action × Option GoErr :=
  if srcStatus = 404 then ([Action.fetchProps bucketType bucket], none)
  else if srcStatus ≠ 200 then
    ([Action.fetchProps bucketType bucket], some (GoErr.statusErr srcStatus))
  else if destStatus ≠ 204 ∧ destStatus ≠ 400 then
    ([Action.fetchProps bucketType bucket, Action.putProps bucketType bucket],
      some (GoErr.statusErr destStatus))
  else ([Action.fetchProps bucketType bucket, Action.putProps bucketType bucket], none)

/-- The key-listing phase of syncBucket (lines 113-161): one listing
request; status 404 means zero keys (warning, nil error, no decode);
any other status goes straight to decoding the body, which fails only
when the body is not a keys document; on success every listed key is
handed to syncKey through the worker pool. -/
def keysPhase (backup backupStdout : Bool) (backupDir bucketType bucket : GoStr)
    (fetch : GoStr → GoStr) (listStatus : Nat) (decodedKeys : Option (List GoStr)) :
    List Action × Option GoErr :=
  if listStatus = 404 then ([Action.fetchKeys bucketType bucket], none)
  else
    match decodedKeys with
    | none => ([Action.fetchKeys bucketType bucket], some GoErr.decodeErr)
    | some keys =>
      (Action.fetchKeys bucketType bucket ::
        keys.flatMap (syncKeyActions backup backupStdout backupDir bucketType bucket fetch),
        none)

/-- syncBucket (lines 100-162): in backup modes no properties call is
made (lines 103-106); otherwise syncProperties runs first and its error
aborts the bucket before the key listing (lines 107-111). -/
def syncBucketRun (backup backupStdout : Bool) (backupDir bucketType bucket : GoStr)
    (srcProps destProps : Nat) (fetch : GoStr → GoStr) (listStatus : Nat)
    (decodedKeys : Option (List GoStr)) : List Action × Option GoErr :=
  if backup then
    keysPhase backup backupStdout backupDir bucketType bucket fetch listStatus decodedKeys
  else
    let props := syncProperties bucketType bucket srcProps destProps
    match props.2 with
    | some e => (props.1, some e)
    | none =>
      let ks := keysPhase backup backupStdout backupDir bucketType bucket fetch listStatus decodedKeys
      (props.1 ++ ks.1, ks.2)

/-- The bucket loop of syncBuckets (lines 85-96): with skip-existing in
file-backup mode, a bucket is skipped whenever os.Stat of
filepath.Join(backupDir, bucketType) — the bucket TYPE directory, the
bucket name is not part of the joined path (line 87) — reports anything
other than not-exist; `existingDirs` is the set of paths os.Stat
succeeds on.  A bucket error aborts the loop. -/
def syncBucketsRun (skipExisting backup backupStdout : Bool) (existingDirs : List GoStr)
    (backupDir bucketType : GoStr) (perBucket : GoStr → List Action × Option GoErr) :
    List GoStr → List Action × Option GoErr
  | [] => ([], none)
  | bucket :: rest =>
    if skipExisting && backup && !backupStdout &&
        existingDirs.contains (cleanJoin backupDir [bucketType]) then
      syncBucketsRun skipExisting backup backupStdout existingDirs backupDir bucketType
        perBucket rest
    else
      match perBucket bucket with
      | (as, some e) => (as, some e)
      | (as, none) =>
        let r := syncBucketsRun skipExisting backup backupStdout existingDirs backupDir
          bucketType perBucket rest
        (as ++ r.1, r.2)

/-- Identity reconstruction of restoreFromBackup (lines 306-311): the
key, bucket and bucket type are the last three slash-separated segments
of the file path, the value is the file contents. -/
def restoreTripleOfPath (path contents : GoStr) : KV :=
  let segs := (splitSlash path).reverse
  KV.mk (segs.getD 2 []) (segs.getD 1 []) (segs.getD 0 []) contents

/-- The destination PUT a restore path issues for a reconstructed
record (lines 313, 358): the key goes into the URL as recovered. -/
def restorePutOfKV (kv : KV) : PutReq :=
  PutReq.mk (keyPath kv.bucketType kv.bucket kv.key) kv.value

/-- The WalkDir callback pass of restoreFromBackup (lines 280-334):
files are visited in order; each file's triple is rebuilt from its
path, PUT to the destination, and any status outside 200/201/204 stops
the walk with an error.  `destResp` maps a request to the status the
destination answers. -/
def walkRestore (destResp : PutReq → Nat) : List (GoStr × GoStr) → List PutReq × Option GoErr
  | [] => ([], none)
  | f :: rest =>
    let pr := restorePutOfKV (restoreTripleOfPath f.1 f.2)
    let st := destResp pr
    if st = 200 ∨ st = 201 ∨ st = 204 then
      let r := walkRestore destResp rest
      (pr :: r.1, r.2)
    else ([pr], some (GoErr.statusErr st))

/-- restoreFromBackup (lines 260-336): runs the walk, assigns its error
to err (line 280), and then returns nil regardless (line 335).  The
first component is the walk's outcome, the second the function's
returned error. -/
def restoreFromBackup (files : List (GoStr × GoStr)) (destResp : PutReq → Nat) :
    (List PutReq × Option GoErr) × Option GoErr :=
  (walkRestore destResp files, none)

/-- try (lines 60-65) at the top of main: nil error continues to a zero
exit, any error exits with status 1. -/
def exitCodeAfterTry : Option GoErr → Nat
  | none => 0
  | some _ => 1

/-- restoreFromStdin (lines 338-376): reads complete lines until EOF
(normal termination), unmarshals each line — a failure aborts with that
error — and PUTs the record, accepting 200/201/204. -/
def restoreFromStdin (destResp : PutReq → Nat) : List GoStr → List PutReq × Option GoErr
  | [] => ([], none)
  | line :: rest =>
    match jsonDecodeKV line with
    | none => ([], some GoErr.decodeErr)
    | some kv =>
      let pr := restorePutOfKV kv
      let st := destResp pr
      if st = 200 ∨ st = 201 ∨ st = 204 then
        let r := restoreFromStdin destResp rest
        (pr :: r.1, r.2)
      else ([pr], some (GoErr.statusErr st))

/-- The backup file path syncKey writes (line 181):
filepath.Join(backupDir, bucketType, bucket, escapedKey). -/
def backupFilePath (backupDir bucketType bucket key : GoStr) : GoStr :=
  cleanJoin backupDir [bucketType, bucket, queryEscape key]

/-- Backing a record up to a file and reading the triple back from the
file path, as restore-from-backup does. -/
def fileRoundTrip (backupDir bucketType bucket key v : GoStr) : KV :=
  restoreTripleOfPath (backupFilePath backupDir bucketType bucket key) v

/-- The stdout line syncKey writes for one record in stream-backup mode
(lines 165, 190-201): the marshalled struct carries the query-escaped
key. -/
def backupStdoutLine (bucketType bucket key v : GoStr) : GoStr :=
  jsonMarshalKV (KV.mk bucketType bucket (queryEscape key) v)

/-- Serializing a record to a stream line and decoding it back, as
restore-from-stdin does. -/
def streamRoundTrip (bucketType bucket key v : GoStr) : Option KV :=
  jsonDecodeKV (backupStdoutLine bucketType bucket key v)

/-- One list is an interleaving of two others (order of each preserved). -/
inductive Interleaving : List α → List α → List α → Prop
  | nil : Interleaving [] [] []
  | left : Interleaving xs ys zs → Interleaving (x :: xs) ys (x :: zs)
  | right : Interleaving xs ys zs → Interleaving xs (y :: ys) (y :: zs)

/-- The sequence of stdout write calls a worker goroutine performs for
its share of the keys in stream-backup mode: per record, one write of
the JSON line and one write of the newline (lines 202-207). -/
def workerChunkSeq (bucketType bucket : GoStr) (fetch : GoStr → GoStr)
    (keys : List GoStr) : List GoStr :=
  keys.flatMap fun key =>
    [backupStdoutLine bucketType bucket key (fetch (destKeyURL bucketType bucket key)), [10]]

/-- Streams stdout can carry when syncBucket's pool (lines 131-144) runs
with two workers in stream-backup mode: the keys are split between the
workers in backlog order (each key is taken by exactly one worker), and
the write calls of the two workers interleave arbitrarily; stdout's
content is the concatenation of the interleaved write chunks. -/
def StdoutReachable2 (bucketType bucket : GoStr) (fetch : GoStr → GoStr)
    (keys : List GoStr) (s : GoStr) : Prop :=
  ∃ ks1 ks2 m, Interleaving ks1 ks2 keys ∧
    Interleaving (workerChunkSeq bucketType bucket fetch ks1)
      (workerChunkSeq bucketType bucket fetch ks2) m ∧
    s = m.flatten

/-- The destination PUT URL paths among a list of actions. -/
def putKeyPaths (as : List Action) : List GoStr :=
  as.filterMap fun a =>
    match a with
    | Action.putKey p _ => some p
    | _ => none

/-- Properties traffic (fetch or put of a props document). -/
def isPropsAction : Action → Bool
  | Action.fetchProps _ _ => true
  | Action.putProps _ _ => true
  | _ => false

/-- Key transfer traffic (fetch, put, file write or stdout write for a
single key). -/
def isKeyAction : Action → Bool
  | Action.fetchKey _ => true
  | Action.putKey _ _ => true
  | Action.writeFile _ _ => true
  | Action.writeStdout _ => true
  | _ => false

/-- Whether `path` lies inside directory `dir`: it begins with
`dir` followed by a slash. -/
def insideDir (dir path : GoStr) : Bool := path.take (dir.length + 1) == dir ++ [47]

end RiakMigrator

namespace RiakMigrator

theorem hexValUp_hexUpper : ∀ n < 16, hexValUp (hexUpper n) = n := by decide

theorem queryUnescapeLI_cons (c : Nat) (t : GoStr) (h37 : c ≠ 37) (h43 : c ≠ 43) :
    queryUnescapeLI (c :: t) = c :: queryUnescapeLI t := by
  rw [queryUnescapeLI.eq_def]
  split
  · simp_all
  · simp_all
  · simp_all
  · simp_all

theorem queryUnescapeLI_escByte (b : Nat) (hb : b < 256) (t : GoStr) :
    queryUnescapeLI (escByteQuery b ++ t) = b :: queryUnescapeLI t := by
  unfold escByteQuery
  by_cases hu : unreservedQuery b
  · have h37 : b ≠ 37 := by rintro rfl; simp [unreservedQuery, isAlnumByte] at hu
    have h43 : b ≠ 43 := by rintro rfl; simp [unreservedQuery, isAlnumByte] at hu
    simp [hu, queryUnescapeLI_cons b t h37 h43]
  · by_cases h32 : b = 32
    · subst h32; simp [hu, queryUnescapeLI]
    · have hdiv : b / 16 < 16 := by omega
      have hmod : b % 16 < 16 := by omega
      simp [hu, h32, queryUnescapeLI,
        hexValUp_hexUpper _ hdiv, hexValUp_hexUpper _ hmod]
      omega

theorem queryUnescapeLI_queryEscape (s : GoStr) (h : ValidBytes s) :
    queryUnescapeLI (queryEscape s) = s := by
  induction s with
  | nil => simp [queryEscape, queryUnescapeLI]
  | cons b rest ih =>
    have hb : b < 256 := h b (List.mem_cons_self ..)
    have hrest : ValidBytes rest := fun x hx => h x (List.mem_cons_of_mem _ hx)
    simpa [queryEscape, queryUnescapeLI_escByte b hb] using ih hrest

theorem queryEscape_inj {a b : GoStr} (ha : ValidBytes a) (hb : ValidBytes b)
    (h : queryEscape a = queryEscape b) : a = b := by
  have := congrArg queryUnescapeLI h
  rwa [queryUnescapeLI_queryEscape a ha, queryUnescapeLI_queryEscape b hb] at this

theorem escByteQuery_no47 (b : Nat) (hb : b < 256) : 47 ∉ escByteQuery b := by
  unfold escByteQuery
  by_cases hu : unreservedQuery b
  · have : b ≠ 47 := by rintro rfl; simp [unreservedQuery, isAlnumByte] at hu
    simp [hu, this]
    omega
  · by_cases h32 : b = 32
    · subst h32; decide
    · have hdiv : b / 16 < 16 := by omega
      have hmod : b % 16 < 16 := by omega
      have hx : ∀ n < 16, hexUpper n ≠ 47 := by decide
      simp [hu, h32]
      exact ⟨fun hh => hx _ hdiv hh.symm, fun hh => hx _ hmod hh.symm⟩

theorem queryEscape_no47 (k : GoStr) (h : ValidBytes k) : 47 ∉ queryEscape k := by
  intro hmem
  rcases List.mem_flatMap.mp hmem with ⟨b, hb, hin⟩
  exact escByteQuery_no47 b (h b hb) hin

theorem queryEscape_ne_nil {k : GoStr} (h : ValidBytes k) (hk : k ≠ []) :
    queryEscape k ≠ [] := by
  intro he
  apply hk
  have := congrArg queryUnescapeLI he
  rwa [queryUnescapeLI_queryEscape k h] at this

theorem queryEscape_ne_dot {k : GoStr} (h : ValidBytes k) (hk : k ≠ [46]) :
    queryEscape k ≠ [46] := by
  intro he
  apply hk
  have := congrArg queryUnescapeLI he
  rw [queryUnescapeLI_queryEscape k h] at this
  simpa [queryUnescapeLI] using this

theorem queryEscape_ne_dotdot {k : GoStr} (h : ValidBytes k) (hk : k ≠ [46, 46]) :
    queryEscape k ≠ [46, 46] := by
  intro he
  apply hk
  have := congrArg queryUnescapeLI he
  rw [queryUnescapeLI_queryEscape k h] at this
  simpa [queryUnescapeLI] using this

theorem queryEscape_normalSeg {k : GoStr} (h : ValidBytes k)
    (h0 : k ≠ []) (h1 : k ≠ [46]) (h2 : k ≠ [46, 46]) : NormalSeg (queryEscape k) :=
  ⟨queryEscape_ne_nil h h0, queryEscape_ne_dot h h1,
   queryEscape_ne_dotdot h h2, queryEscape_no47 k h⟩

theorem splitSlash_ne_nil (s : GoStr) : splitSlash s ≠ [] := by
  cases s with
  | nil => simp [splitSlash]
  | cons c rest =>
    rw [splitSlash]
    split
    · simp
    · split <;> simp

theorem joinSegs_splitSlash (s : GoStr) : joinSegs (splitSlash s) = s := by
  induction s with
  | nil => rfl
  | cons c rest ih =>
    rw [splitSlash]
    split
    · subst c
      rcases he : splitSlash rest with _ | ⟨a, as⟩
      · exact absurd he (splitSlash_ne_nil rest)
      · rw [he] at ih
        simp [joinSegs, ih]
    · rcases he : splitSlash rest with _ | ⟨a, as⟩
      · exact absurd he (splitSlash_ne_nil rest)
      · rw [he] at ih
        cases as with
        | nil => simpa [joinSegs] using congrArg (c :: ·) ih
        | cons b bs => simpa [joinSegs] using congrArg (c :: ·) ih

theorem splitSlash_append47 (x y : GoStr) :
    splitSlash (x ++ 47 :: y) = splitSlash x ++ splitSlash y := by
  induction x with
  | nil => simp [splitSlash]
  | cons c rest ih =>
    by_cases hc : c = 47
    · subst hc
      simp [splitSlash, ih]
    · rw [List.cons_append, splitSlash, if_neg hc, splitSlash, if_neg hc, ih]
      rcases he : splitSlash rest with _ | ⟨a, as⟩
      · exact absurd he (splitSlash_ne_nil rest)
      · simp

theorem splitSlash_noSlash (s : GoStr) (h : 47 ∉ s) : splitSlash s = [s] := by
  induction s with
  | nil => rfl
  | cons c rest ih =>
    have hc : c ≠ 47 := fun hx => h (hx ▸ List.mem_cons_self ..)
    rw [splitSlash, if_neg hc, ih (fun hx => h (List.mem_cons_of_mem _ hx))]

theorem joinSegs_append (xs ys : List GoStr) (hxs : xs ≠ []) (hys : ys ≠ []) :
    joinSegs (xs ++ ys) = joinSegs xs ++ 47 :: joinSegs ys := by
  induction xs with
  | nil => exact absurd rfl hxs
  | cons x xs ih =>
    cases xs with
    | nil =>
      cases ys with
      | nil => exact absurd rfl hys
      | cons a as => simp [joinSegs]
    | cons x2 xs2 =>
      have ih2 := ih (by simp)
      calc joinSegs ((x :: x2 :: xs2) ++ ys)
          = x ++ 47 :: joinSegs ((x2 :: xs2) ++ ys) := by
            rw [List.cons_append]
            rfl
        _ = x ++ 47 :: (joinSegs (x2 :: xs2) ++ 47 :: joinSegs ys) := by rw [ih2]
        _ = joinSegs (x :: x2 :: xs2) ++ 47 :: joinSegs ys := by
            show _ = (x ++ 47 :: joinSegs (x2 :: xs2)) ++ 47 :: joinSegs ys
            simp

theorem flatMap_splitSlash_noSlash (parts : List GoStr) (h : ∀ p ∈ parts, 47 ∉ p) :
    parts.flatMap splitSlash = parts := by
  induction parts with
  | nil => rfl
  | cons p rest ih =>
    rw [List.flatMap_cons, splitSlash_noSlash p (h p (List.mem_cons_self ..)),
      ih (fun q hq => h q (List.mem_cons_of_mem _ hq))]
    rfl

theorem cleanStack_normal (segs : List GoStr) :
    ∀ acc, (∀ s ∈ segs, NormalSeg s) → cleanStack segs acc = segs.reverse ++ acc := by
  induction segs with
  | nil => intro acc _; simp [cleanStack]
  | cons s rest ih =>
    intro acc h
    have hs : NormalSeg s := h s (List.mem_cons_self ..)
    obtain ⟨h0, h1, h2, _⟩ := hs
    show (if s = [] ∨ s = [46] then cleanStack rest acc
      else if s = [46, 46] then
        (match acc with
         | [] => cleanStack rest [s]
         | t :: acc2 => if t = [46, 46] then cleanStack rest (s :: acc) else cleanStack rest acc2)
      else cleanStack rest (s :: acc)) = (s :: rest).reverse ++ acc
    rw [if_neg (by simp [h0, h1]), if_neg h2,
      ih (s :: acc) (fun x hx => h x (List.mem_cons_of_mem _ hx))]
    simp

theorem cleanJoin_normal (root : GoStr) (parts : List GoStr)
    (hroot : NormalPath root) (hparts : ∀ p ∈ parts, NormalSeg p) (hne : parts ≠ []) :
    cleanJoin root parts = root ++ 47 :: joinSegs parts := by
  have hflat : (root :: parts).flatMap splitSlash = splitSlash root ++ parts := by
    rw [List.flatMap_cons,
      flatMap_splitSlash_noSlash parts (fun p hp => (hparts p hp).2.2.2)]
  have hall : ∀ s ∈ splitSlash root ++ parts, NormalSeg s := by
    intro s hs
    rcases List.mem_append.mp hs with h | h
    · exact hroot s h
    · exact hparts s h
  rw [cleanJoin, hflat, cleanStack_normal _ [] hall]
  rw [List.append_nil, List.reverse_reverse,
    joinSegs_append _ _ (splitSlash_ne_nil root) hne, joinSegs_splitSlash]

theorem hexValLow_hexLower : ∀ n < 16, hexValLow (hexLower n) = n := by decide

theorem b64val_b64char : ∀ n < 64, b64val (b64char n) = n := by decide

theorem b64char_props (n : Nat) : b64char n ≠ 34 ∧ b64char n ≠ 92 ∧ b64char n ≠ 61 := by
  rcases Nat.lt_or_ge n 64 with h | h
  · revert h
    revert n
    decide
  · have hd : b64char n = 65 := by
      unfold b64char
      apply List.getD_eq_default
      simp only [b64chars]
      simp
      omega
    simp [hd]

theorem parseJSONString_cons (c : Nat) (t : GoStr) :
    parseJSONString (c :: t) =
      (if c = 34 then some (([] : GoStr), t)
       else if c = 92 then
         match t with
         | [] => none
         | e :: rest2 =>
           if e = 117 then
             match rest2 with
             | a :: b :: c2 :: d :: rest3 =>
               if a = 48 ∧ b = 48 ∧ hexValLow c2 < 16 ∧ hexValLow d < 16 then
                 (fun p => ((hexValLow c2 * 16 + hexValLow d) :: p.1, p.2)) <$> parseJSONString rest3
               else none
             | _ => none
           else
             match escCodeVal e with
             | some b => (fun p => (b :: p.1, p.2)) <$> parseJSONString rest2
             | none => none
       else (fun p => (c :: p.1, p.2)) <$> parseJSONString t) := by
  rw [parseJSONString.eq_def]
  rfl

theorem parseJSONString_escByte (b : Nat) (hb : b < 256) (t : GoStr) :
    parseJSONString (escByteJSON b ++ t) =
      (fun p => (b :: p.1, p.2)) <$> parseJSONString t := by
  unfold escByteJSON
  by_cases h34 : b = 34
  · subst h34
    show parseJSONString (92 :: 34 :: t) = _
    rw [parseJSONString_cons]
    norm_num [escCodeVal]
  · by_cases h92 : b = 92
    · subst h92
      show parseJSONString (92 :: 92 :: t) = _
      rw [parseJSONString_cons]
      norm_num [escCodeVal]
    · by_cases h10 : b = 10
      · subst h10
        show parseJSONString (92 :: 110 :: t) = _
        rw [parseJSONString_cons]
        norm_num [escCodeVal]
      · by_cases h13 : b = 13
        · subst h13
          show parseJSONString (92 :: 114 :: t) = _
          rw [parseJSONString_cons]
          norm_num [escCodeVal]
        · by_cases h9 : b = 9
          · subst h9
            show parseJSONString (92 :: 116 :: t) = _
            rw [parseJSONString_cons]
            norm_num [escCodeVal]
          · by_cases hu : b < 32 ∨ b = 60 ∨ b = 62 ∨ b = 38
            · have hd : b / 16 < 16 := by omega
              have hm : b % 16 < 16 := by omega
              rw [if_neg h34, if_neg h92, if_neg h10, if_neg h13, if_neg h9, if_pos hu]
              rw [show ([92, 117, 48, 48, hexLower (b / 16), hexLower (b % 16)] ++ t : GoStr) =
                92 :: 117 :: 48 :: 48 :: hexLower (b / 16) :: hexLower (b % 16) :: t from rfl]
              rw [parseJSONString_cons]
              norm_num [hexValLow_hexLower _ hd, hexValLow_hexLower _ hm]
              rw [show b / 16 * 16 + b % 16 = b from by omega, if_pos (And.intro hd hm)]
            · rw [if_neg h34, if_neg h92, if_neg h10, if_neg h13, if_neg h9, if_neg hu,
                List.cons_append, List.nil_append, parseJSONString_cons, if_neg h34, if_neg h92]

theorem parseJSONString_escString (s : GoStr) (h : ValidBytes s) (r : GoStr) :
    parseJSONString (escString s ++ 34 :: r) = some (s, r) := by
  induction s with
  | nil =>
    rw [show (escString [] ++ 34 :: r : GoStr) = 34 :: r from rfl, parseJSONString_cons]
    norm_num
  | cons b s2 ih =>
    have hb := h b (List.mem_cons_self ..)
    have ih2 := ih (fun x hx => h x (List.mem_cons_of_mem _ hx))
    simp only [escString] at ih2 ⊢
    rw [List.flatMap_cons, List.append_assoc, parseJSONString_escByte b hb, ih2]
    rfl

theorem parseJSONString_raw (s : GoStr) (h : ∀ c ∈ s, c ≠ 34 ∧ c ≠ 92) (r : GoStr) :
    parseJSONString (s ++ 34 :: r) = some (s, r) := by
  induction s with
  | nil =>
    rw [List.nil_append, parseJSONString_cons]
    norm_num
  | cons c s2 ih =>
    obtain ⟨h34, h92⟩ := h c (List.mem_cons_self ..)
    rw [List.cons_append, parseJSONString_cons, if_neg h34, if_neg h92,
      ih (fun x hx => h x (List.mem_cons_of_mem _ hx))]
    rfl

theorem b64encode_no_quote : ∀ (v : GoStr), ∀ c ∈ b64encode v, c ≠ 34 ∧ c ≠ 92
  | [] => by simp [b64encode]
  | [a] => by
    intro c hc
    simp only [b64encode, List.mem_cons, List.not_mem_nil, or_false] at hc
    rcases hc with rfl | rfl | rfl | rfl
    · exact ⟨(b64char_props _).1, (b64char_props _).2.1⟩
    · exact ⟨(b64char_props _).1, (b64char_props _).2.1⟩
    · exact ⟨by decide, by decide⟩
    · exact ⟨by decide, by decide⟩
  | [a, b] => by
    intro c hc
    simp only [b64encode, List.mem_cons, List.not_mem_nil, or_false] at hc
    rcases hc with rfl | rfl | rfl | rfl
    · exact ⟨(b64char_props _).1, (b64char_props _).2.1⟩
    · exact ⟨(b64char_props _).1, (b64char_props _).2.1⟩
    · exact ⟨(b64char_props _).1, (b64char_props _).2.1⟩
    · exact ⟨by decide, by decide⟩
  | a :: b :: c2 :: rest => by
    intro c hc
    simp only [b64encode, List.mem_cons] at hc
    rcases hc with rfl | rfl | rfl | rfl | hmem
    · exact ⟨(b64char_props _).1, (b64char_props _).2.1⟩
    · exact ⟨(b64char_props _).1, (b64char_props _).2.1⟩
    · exact ⟨(b64char_props _).1, (b64char_props _).2.1⟩
    · exact ⟨(b64char_props _).1, (b64char_props _).2.1⟩
    · exact b64encode_no_quote rest c hmem

theorem b64decode_cons4 (w x y z : Nat) (rest : GoStr) :
    b64decode (w :: x :: y :: z :: rest) =
      (if y = 61 ∧ z = 61 ∧ rest = [] then
        if b64val w < 64 ∧ b64val x < 64 then some [b64val w * 4 + b64val x / 16] else none
      else if z = 61 ∧ rest = [] then
        if b64val w < 64 ∧ b64val x < 64 ∧ b64val y < 64 then
          some [b64val w * 4 + b64val x / 16, b64val x % 16 * 16 + b64val y / 4]
        else none
      else
        if b64val w < 64 ∧ b64val x < 64 ∧ b64val y < 64 ∧ b64val z < 64 then
          (fun d => (b64val w * 4 + b64val x / 16) :: (b64val x % 16 * 16 + b64val y / 4) ::
            (b64val y % 4 * 64 + b64val z) :: d) <$> b64decode rest
        else none) := by
  rw [b64decode.eq_def]

theorem b64decode_encode : ∀ (v : GoStr), ValidBytes v → b64decode (b64encode v) = some v
  | [] => fun _ => rfl
  | [a] => fun h => by
    have ha : a < 256 := h a (List.mem_cons_self ..)
    have h1 : a / 4 < 64 := by omega
    have h2 : a % 4 * 16 < 64 := by omega
    show b64decode (b64char (a / 4) :: b64char (a % 4 * 16) :: 61 :: 61 :: []) = some [a]
    rw [b64decode_cons4,
      if_pos (show (61 : Nat) = 61 ∧ (61 : Nat) = 61 ∧ ([] : GoStr) = [] from ⟨rfl, rfl, rfl⟩),
      b64val_b64char _ h1, b64val_b64char _ h2, if_pos (And.intro h1 h2),
      show a / 4 * 4 + a % 4 * 16 / 16 = a from by omega]
  | [a, b] => fun h => by
    have ha : a < 256 := h a (List.mem_cons_self ..)
    have hb : b < 256 := h b (by simp)
    have h1 : a / 4 < 64 := by omega
    have h2 : a % 4 * 16 + b / 16 < 64 := by omega
    have h3 : b % 16 * 4 < 64 := by omega
    have hy : b64char (b % 16 * 4) ≠ 61 := (b64char_props _).2.2
    show b64decode
      (b64char (a / 4) :: b64char (a % 4 * 16 + b / 16) :: b64char (b % 16 * 4) :: 61 :: []) =
      some [a, b]
    rw [b64decode_cons4, if_neg (fun hcon => hy hcon.1),
      if_pos (show (61 : Nat) = 61 ∧ ([] : GoStr) = [] from ⟨rfl, rfl⟩),
      b64val_b64char _ h1, b64val_b64char _ h2, b64val_b64char _ h3,
      if_pos (And.intro h1 (And.intro h2 h3)),
      show a / 4 * 4 + (a % 4 * 16 + b / 16) / 16 = a from by omega,
      show (a % 4 * 16 + b / 16) % 16 * 16 + b % 16 * 4 / 4 = b from by omega]
  | a :: b :: c :: rest => fun h => by
    have ha : a < 256 := h a (List.mem_cons_self ..)
    have hb : b < 256 := h b (by simp)
    have hc : c < 256 := h c (by simp)
    have h1 : a / 4 < 64 := by omega
    have h2 : a % 4 * 16 + b / 16 < 64 := by omega
    have h3 : b % 16 * 4 + c / 64 < 64 := by omega
    have h4 : c % 64 < 64 := by omega
    have hy : b64char (b % 16 * 4 + c / 64) ≠ 61 := (b64char_props _).2.2
    have hz : b64char (c % 64) ≠ 61 := (b64char_props _).2.2
    have ih := b64decode_encode rest (fun x hx => h x (by simp [hx]))
    show b64decode (b64char (a / 4) :: b64char (a % 4 * 16 + b / 16) ::
      b64char (b % 16 * 4 + c / 64) :: b64char (c % 64) :: b64encode rest) =
      some (a :: b :: c :: rest)
    rw [b64decode_cons4, if_neg (fun hcon => hy hcon.1), if_neg (fun hcon => hz hcon.1),
      b64val_b64char _ h1, b64val_b64char _ h2, b64val_b64char _ h3, b64val_b64char _ h4,
      if_pos (And.intro h1 (And.intro h2 (And.intro h3 h4))), ih]
    simp only [show a / 4 * 4 + (a % 4 * 16 + b / 16) / 16 = a from by omega,
      show (a % 4 * 16 + b / 16) % 16 * 16 + (b % 16 * 4 + c / 64) / 4 = b from by omega,
      show (b % 16 * 4 + c / 64) % 4 * 64 + c % 64 = c from by omega]
    rfl

theorem dropWS_kvHead (r : GoStr) : dropWS (kvHead ++ r) = kvHead ++ r := by
  simp [kvHead, dropWS]

theorem dropLead_append (p : GoStr) : ∀ s, dropLead p (p ++ s) = some s := by
  induction p with
  | nil => intro s; rfl
  | cons a p2 ih => intro s; simp [dropLead, ih]

theorem dropLead_refl (p : GoStr) : dropLead p p = some [] := by
  simpa using dropLead_append p []

theorem optBind_some (a : α) (f : α → Option β) :
    (do let x ← some a; f x : Option β) = f a := rfl

theorem jsonDecodeKV_marshal (kv : KV) (h1 : ValidBytes kv.bucketType)
    (h2 : ValidBytes kv.bucket) (h3 : ValidBytes kv.key) (h4 : ValidBytes kv.value) :
    jsonDecodeKV (jsonMarshalKV kv) = some kv := by
  obtain ⟨bt, bu, ke, v⟩ := kv
  simp only at h1 h2 h3 h4
  rw [jsonMarshalKV]
  simp only [jsonDecodeKV, List.append_assoc, List.cons_append, dropWS_kvHead,
    dropLead_append, dropLead_refl, optBind_some, parseJSONString_escString bt h1,
    parseJSONString_escString bu h2, parseJSONString_escString ke h3,
    parseJSONString_raw _ (b64encode_no_quote v), b64decode_encode v h4]
  rfl

theorem escByteQuery_mem_lt (b : Nat) (hb : b < 256) : ∀ c ∈ escByteQuery b, c < 256 := by
  intro c hc
  unfold escByteQuery at hc
  by_cases hu : unreservedQuery b
  · rw [if_pos hu] at hc
    simp only [List.mem_singleton] at hc
    omega
  · rw [if_neg hu] at hc
    by_cases h32 : b = 32
    · rw [if_pos h32] at hc
      simp only [List.mem_singleton] at hc
      omega
    · rw [if_neg h32] at hc
      have hx : ∀ n < 16, hexUpper n < 256 := by decide
      have hdiv : b / 16 < 16 := by omega
      have hmod : b % 16 < 16 := by omega
      simp only [List.mem_cons, List.not_mem_nil, or_false] at hc
      rcases hc with rfl | rfl | rfl
      · omega
      · exact hx _ hdiv
      · exact hx _ hmod

theorem queryEscape_validBytes (k : GoStr) (h : ValidBytes k) : ValidBytes (queryEscape k) := by
  intro c hc
  rcases List.mem_flatMap.mp hc with ⟨b, hb, hcin⟩
  exact escByteQuery_mem_lt b (h b hb) c hcin

/-- C3 (counterexample): the stream round trip of the record with
bucket type t, bucket b, key a-space-b and payload 1 reconstructs the
key as a+b, not the original key: syncKey overwrites the key with
url.QueryEscape(key) (line 165) before marshalling it, and the restore
path never unescapes. -/
theorem c3_counterexample :
    streamRoundTrip [116] [98] [97, 32, 98] [49] =
      some (KV.mk [116] [98] [97, 43, 98] [49]) ∧
    ([97, 43, 98] : GoStr) ≠ [97, 32, 98] := by decide

/-- C3 (amended): serializing a record with BackupToStream and decoding
the line with RestoreFromStream reconstructs the bucket type, bucket
and payload bytes exactly, and reconstructs the key as the query-escaped
form of the original key; since the restore PUT inserts that key into
the URL without escaping it again, the destination write URL is exactly
the URL live sync uses for the original key. -/
theorem c3_streamRoundTrip (bucketType bucket key v : GoStr)
    (h1 : ValidBytes bucketType) (h2 : ValidBytes bucket)
    (h3 : ValidBytes key) (h4 : ValidBytes v) :
    streamRoundTrip bucketType bucket key v =
      some (KV.mk bucketType bucket (queryEscape key) v) ∧
    (restorePutOfKV (KV.mk bucketType bucket (queryEscape key) v)).path =
      destKeyURL bucketType bucket key := by
  refine ⟨?_, rfl⟩
  exact jsonDecodeKV_marshal (KV.mk bucketType bucket (queryEscape key) v)
    h1 h2 (queryEscape_validBytes key h3) h4

/-- C3 (witness): the amended round trip at the record t, b, x, 1. -/
theorem c3_streamRoundTrip_witness :
    streamRoundTrip [116] [98] [120] [49] =
      some (KV.mk [116] [98] (queryEscape [120]) [49]) ∧
    (restorePutOfKV (KV.mk [116] [98] (queryEscape [120]) [49])).path =
      destKeyURL [116] [98] [120] :=
  c3_streamRoundTrip [116] [98] [120] [49] (by decide) (by decide) (by decide) (by decide)

/-- C2 (counterexample): the file round trip of the record with bucket
type t, bucket b, key a-space-b and payload 1 under backup root
"backup" reconstructs the key as a+b, not the original key: the backup
file is named url.QueryEscape(key) (lines 165, 181) and
restoreFromBackup takes the last path segment as the key without
unescaping (line 308). -/
theorem c2_counterexample :
    fileRoundTrip [98, 97, 99, 107, 117, 112] [116] [98] [97, 32, 98] [49] =
      KV.mk [116] [98] [97, 43, 98] [49] ∧
    ([97, 43, 98] : GoStr) ≠ [97, 32, 98] := by decide

/-- C2 (amended): backing a record up with BackupToFile and
reconstructing it from the file path as RestoreFromBackup does yields
the bucket type, bucket and payload bytes exactly and the key in its
query-escaped form, provided the backup root is a plain relative path,
the bucket type and bucket are plain path elements, and the key is not
empty, dot or dot-dot; the destination write URL of the restored record
is exactly the URL live sync uses for the original key. -/
theorem c2_fileRoundTrip (root bucketType bucket key v : GoStr)
    (hroot : NormalPath root) (hT : NormalSeg bucketType) (hB : NormalSeg bucket)
    (hk : ValidBytes key) (h0 : key ≠ []) (h1 : key ≠ [46]) (h2 : key ≠ [46, 46]) :
    fileRoundTrip root bucketType bucket key v =
      KV.mk bucketType bucket (queryEscape key) v ∧
    (restorePutOfKV (fileRoundTrip root bucketType bucket key v)).path =
      destKeyURL bucketType bucket key := by
  have he : NormalSeg (queryEscape key) := queryEscape_normalSeg hk h0 h1 h2
  have hparts : ∀ p ∈ [bucketType, bucket, queryEscape key], NormalSeg p := by
    intro p hp
    simp only [List.mem_cons, List.not_mem_nil, or_false] at hp
    rcases hp with rfl | rfl | rfl
    · exact hT
    · exact hB
    · exact he
  have hpath : backupFilePath root bucketType bucket key =
      root ++ 47 :: (bucketType ++ 47 :: (bucket ++ 47 :: queryEscape key)) := by
    rw [backupFilePath, cleanJoin_normal root _ hroot hparts (by simp)]
    rfl
  have hmain : fileRoundTrip root bucketType bucket key v =
      KV.mk bucketType bucket (queryEscape key) v := by
    unfold fileRoundTrip restoreTripleOfPath
    rw [hpath, splitSlash_append47, splitSlash_append47, splitSlash_append47,
      splitSlash_noSlash bucketType hT.2.2.2, splitSlash_noSlash bucket hB.2.2.2,
      splitSlash_noSlash (queryEscape key) he.2.2.2]
    simp [List.reverse_append]
  exact ⟨hmain, by rw [hmain]; rfl⟩

/-- C2 (witness): the amended file round trip at backup root "backup",
record t, b, x, 1. -/
theorem c2_fileRoundTrip_witness :
    fileRoundTrip [98, 97, 99, 107, 117, 112] [116] [98] [120] [49] =
      KV.mk [116] [98] (queryEscape [120]) [49] ∧
    (restorePutOfKV (fileRoundTrip [98, 97, 99, 107, 117, 112] [116] [98] [120] [49])).path =
      destKeyURL [116] [98] [120] :=
  c2_fileRoundTrip [98, 97, 99, 107, 117, 112] [116] [98] [120] [49]
    (by decide) (by decide) (by decide) (by decide) (by decide) (by decide) (by decide)

/-- C9 (counterexample): the key dot-dot survives query-escaping
unchanged, and filepath.Join resolves it, so the backup write for key
dot-dot under root "backup", type t, bucket b targets the path
backup/t — the bucket type directory, outside the bucket's own backup
directory backup/t/b. -/
theorem c9_counterexample :
    backupFilePath [98, 97, 99, 107, 117, 112] [116] [98] [46, 46] =
      [98, 97, 99, 107, 117, 112, 47, 116] ∧
    insideDir (cleanJoin [98, 97, 99, 107, 117, 112] [[116], [98]])
      (backupFilePath [98, 97, 99, 107, 117, 112] [116] [98] [46, 46]) = false := by decide

/-- C9 (amended): the backup file name is the query-escaped key, which
never contains a path separator, so a key containing a slash cannot
escape the bucket directory; however the keys empty, dot and dot-dot
survive escaping unchanged and are resolved by filepath.Join, so they
must be excluded: for every other key the write path is exactly the
bucket directory plus the escaped key as one final segment. -/
theorem c9_backupFilePath (root bucketType bucket key : GoStr)
    (hroot : NormalPath root) (hT : NormalSeg bucketType) (hB : NormalSeg bucket)
    (hk : ValidBytes key) (h0 : key ≠ []) (h1 : key ≠ [46]) (h2 : key ≠ [46, 46]) :
    backupFilePath root bucketType bucket key =
      cleanJoin root [bucketType, bucket] ++ 47 :: queryEscape key ∧
    47 ∉ queryEscape key ∧
    insideDir (cleanJoin root [bucketType, bucket])
      (backupFilePath root bucketType bucket key) = true := by
  have he : NormalSeg (queryEscape key) := queryEscape_normalSeg hk h0 h1 h2
  have hparts3 : ∀ p ∈ [bucketType, bucket, queryEscape key], NormalSeg p := by
    intro p hp
    simp only [List.mem_cons, List.not_mem_nil, or_false] at hp
    rcases hp with rfl | rfl | rfl
    · exact hT
    · exact hB
    · exact he
  have hparts2 : ∀ p ∈ [bucketType, bucket], NormalSeg p := by
    intro p hp
    simp only [List.mem_cons, List.not_mem_nil, or_false] at hp
    rcases hp with rfl | rfl
    · exact hT
    · exact hB
  have hdir : cleanJoin root [bucketType, bucket] =
      root ++ 47 :: (bucketType ++ 47 :: bucket) := by
    rw [cleanJoin_normal root _ hroot hparts2 (by simp)]
    rfl
  have hpath : backupFilePath root bucketType bucket key =
      cleanJoin root [bucketType, bucket] ++ 47 :: queryEscape key := by
    rw [backupFilePath, cleanJoin_normal root _ hroot hparts3 (by simp), hdir]
    simp [joinSegs]
  refine ⟨hpath, queryEscape_no47 key hk, ?_⟩
  rw [hpath, insideDir]
  have htake : (cleanJoin root [bucketType, bucket] ++ 47 :: queryEscape key).take
      ((cleanJoin root [bucketType, bucket]).length + 1) =
      cleanJoin root [bucketType, bucket] ++ [47] := by
    rw [show (47 :: queryEscape key : GoStr) = [47] ++ queryEscape key from rfl,
      ← List.append_assoc]
    rw [show (cleanJoin root [bucketType, bucket]).length + 1 =
      (cleanJoin root [bucketType, bucket] ++ [47]).length from by simp]
    exact List.take_left _ _
  rw [htake]
  simp

/-- C9 (witness): the amended path shape at backup root "backup",
type t, bucket b, key x. -/
theorem c9_backupFilePath_witness :
    backupFilePath [98, 97, 99, 107, 117, 112] [116] [98] [120] =
      cleanJoin [98, 97, 99, 107, 117, 112] [[116], [98]] ++ 47 :: queryEscape [120] ∧
    47 ∉ queryEscape [120] ∧
    insideDir (cleanJoin [98, 97, 99, 107, 117, 112] [[116], [98]])
      (backupFilePath [98, 97, 99, 107, 117, 112] [116] [98] [120]) = true :=
  c9_backupFilePath [98, 97, 99, 107, 117, 112] [116] [98] [120]
    (by decide) (by decide) (by decide) (by decide) (by decide) (by decide) (by decide)

theorem keyPath_inj (bucketType bucket : GoStr) {x y : GoStr}
    (h : keyPath bucketType bucket x = keyPath bucketType bucket y) : x = y := by
  unfold keyPath at h
  simp only [List.append_assoc] at h
  exact List.append_cancel_left (List.append_cancel_left (List.append_cancel_left
    (List.append_cancel_left (List.append_cancel_left h))))

theorem putKeyPaths_append (a b : List Action) :
    putKeyPaths (a ++ b) = putKeyPaths a ++ putKeyPaths b := by
  simp [putKeyPaths]

theorem putKeyPaths_syncKeyActions_live (backupDir bucketType bucket : GoStr)
    (fetch : GoStr → GoStr) (key : GoStr) :
    putKeyPaths (syncKeyActions false false backupDir bucketType bucket fetch key) =
      [destKeyURL bucketType bucket key] := by
  simp [syncKeyActions, putKeyPaths, destKeyURL]

theorem putKeyPaths_live_flatMap (backupDir bucketType bucket : GoStr)
    (fetch : GoStr → GoStr) (keys : List GoStr) :
    putKeyPaths (keys.flatMap (syncKeyActions false false backupDir bucketType bucket fetch)) =
      keys.map (destKeyURL bucketType bucket) := by
  induction keys with
  | nil => rfl
  | cons k ks ih =>
    rw [List.flatMap_cons, putKeyPaths_append,
      putKeyPaths_syncKeyActions_live, ih, List.map_cons]
    rfl

/-- C1: in live-sync mode, for a bucket whose key listing succeeds with
keys K (status 200, body decoded), a run in which every fetch and
destination write succeeds issues exactly one destination PUT per
listed key: the PUT URL list is the image of K under the destination
key URL map, it has length the number of keys, every key's URL occurs,
the URLs are pairwise distinct when the keys are, and every issued URL
is the URL of some listed key — no write for a key outside K. -/
theorem c1_liveSyncWrites (bucketType bucket backupDir : GoStr) (fetch : GoStr → GoStr)
    (keys : List GoStr) (hnd : keys.Nodup) (hvb : ∀ k ∈ keys, ValidBytes k) :
    putKeyPaths (keysPhase false false backupDir bucketType bucket fetch 200 (some keys)).1 =
      keys.map (destKeyURL bucketType bucket) ∧
    (putKeyPaths (keysPhase false false backupDir bucketType bucket fetch 200 (some keys)).1).length =
      keys.length ∧
    (∀ k ∈ keys, destKeyURL bucketType bucket k ∈
      putKeyPaths (keysPhase false false backupDir bucketType bucket fetch 200 (some keys)).1) ∧
    (putKeyPaths (keysPhase false false backupDir bucketType bucket fetch 200 (some keys)).1).Nodup ∧
    (∀ k, ValidBytes k → destKeyURL bucketType bucket k ∈
      putKeyPaths (keysPhase false false backupDir bucketType bucket fetch 200 (some keys)).1 →
      k ∈ keys) := by
  have hcore : putKeyPaths (keysPhase false false backupDir bucketType bucket fetch 200
      (some keys)).1 = keys.map (destKeyURL bucketType bucket) := by
    rw [keysPhase, if_neg (by decide)]
    show putKeyPaths (Action.fetchKeys bucketType bucket :: _) = _
    rw [show ∀ (as : List Action), putKeyPaths (Action.fetchKeys bucketType bucket :: as) =
      putKeyPaths as from fun as => rfl]
    exact putKeyPaths_live_flatMap backupDir bucketType bucket fetch keys
  have hinj : ∀ x ∈ keys, ∀ y ∈ keys,
      destKeyURL bucketType bucket x = destKeyURL bucketType bucket y → x = y := by
    intro x hx y hy hxy
    exact queryEscape_inj (hvb x hx) (hvb y hy) (keyPath_inj bucketType bucket hxy)
  refine ⟨hcore, ?_, ?_, ?_, ?_⟩
  · rw [hcore, List.length_map]
  · intro k hk
    rw [hcore]
    exact List.mem_map_of_mem _ hk
  · rw [hcore]
    exact hnd.map_on hinj
  · intro k hkv hmem
    rw [hcore] at hmem
    rcases List.mem_map.mp hmem with ⟨k2, hk2, heq⟩
    have : k2 = k := queryEscape_inj (hvb k2 hk2) hkv (keyPath_inj bucketType bucket heq)
    exact this ▸ hk2

/-- C1 (witness): the live-sync write list for bucket type t, bucket b
and the two keys a and b-space. -/
theorem c1_liveSyncWrites_witness :
    putKeyPaths (keysPhase false false [100] [116] [98] (fun _ => [49]) 200
      (some [[97], [98, 32]])).1 = [[97], [98, 32]].map (destKeyURL [116] [98]) ∧
    (putKeyPaths (keysPhase false false [100] [116] [98] (fun _ => [49]) 200
      (some [[97], [98, 32]])).1).length = ([[97], [98, 32]] : List GoStr).length ∧
    (∀ k ∈ ([[97], [98, 32]] : List GoStr), destKeyURL [116] [98] k ∈
      putKeyPaths (keysPhase false false [100] [116] [98] (fun _ => [49]) 200
        (some [[97], [98, 32]])).1) ∧
    (putKeyPaths (keysPhase false false [100] [116] [98] (fun _ => [49]) 200
      (some [[97], [98, 32]])).1).Nodup ∧
    (∀ k, ValidBytes k → destKeyURL [116] [98] k ∈
      putKeyPaths (keysPhase false false [100] [116] [98] (fun _ => [49]) 200
        (some [[97], [98, 32]])).1 → k ∈ ([[97], [98, 32]] : List GoStr)) :=
  c1_liveSyncWrites [116] [98] [100] (fun _ => [49]) [[97], [98, 32]]
    (by decide) (by decide)

theorem syncKeyActions_no_props (backup backupStdout : Bool)
    (backupDir bucketType bucket : GoStr) (fetch : GoStr → GoStr) (key : GoStr) :
    ∀ a ∈ syncKeyActions backup backupStdout backupDir bucketType bucket fetch key,
      isPropsAction a = false := by
  intro a ha
  cases backup <;> cases backupStdout <;>
    simp only [syncKeyActions, Bool.and_self, Bool.and_true, Bool.and_false,
      Bool.true_and, Bool.false_and, Bool.not_true, Bool.not_false,
      Bool.false_eq_true, Bool.true_eq_false, if_true, if_false,
      List.mem_cons, List.not_mem_nil, or_false] at ha <;>
    rcases ha with rfl | ha <;>
    first
      | rfl
      | (rcases ha with rfl | rfl <;> rfl)

theorem keysPhase_no_props (backup backupStdout : Bool)
    (backupDir bucketType bucket : GoStr) (fetch : GoStr → GoStr)
    (listStatus : Nat) (dec : Option (List GoStr)) :
    ∀ a ∈ (keysPhase backup backupStdout backupDir bucketType bucket fetch listStatus dec).1,
      isPropsAction a = false := by
  intro a ha
  unfold keysPhase at ha
  split_ifs at ha
  · simp only [List.mem_singleton] at ha
    subst ha
    rfl
  · cases dec with
    | none =>
      simp only [List.mem_singleton] at ha
      subst ha
      rfl
    | some keys =>
      simp only [List.mem_cons] at ha
      rcases ha with rfl | ha
      · rfl
      · rcases List.mem_flatMap.mp ha with ⟨k, _, hk⟩
        exact syncKeyActions_no_props backup backupStdout backupDir bucketType bucket
          fetch k a hk

/-- C7 (counterexample): a key listing answered with status 500 whose
body decodes as a keys document is not treated as a fatal discovery
error: syncBucket checks only for 404 (line 119) and otherwise decodes
the body and transfers the listed keys — here one key, giving a fetch
and a destination PUT besides the listing. -/
theorem c7_counterexample :
    (keysPhase false false [100] [116] [98] (fun _ => [49]) 500 (some [[120]])).2 = none ∧
    (keysPhase false false [100] [116] [98] (fun _ => [49]) 500 (some [[120]])).1.length = 3 := by
  decide

/-- C7 (amended): a 404 key listing means zero keys — a warning, no
decode, no transfers, a nil error, so the bucket loop continues and the
run can still exit 0; for any other status the status code is never
inspected: the listing is fatal exactly when the body fails to decode
as a keys document. -/
theorem c7_keysListing (backup backupStdout : Bool) (backupDir bucketType bucket : GoStr)
    (srcProps destProps : Nat) (fetch : GoStr → GoStr) (listStatus : Nat)
    (dec : Option (List GoStr)) :
    keysPhase backup backupStdout backupDir bucketType bucket fetch 404 dec =
      ([Action.fetchKeys bucketType bucket], none) ∧
    (listStatus ≠ 404 →
      keysPhase backup backupStdout backupDir bucketType bucket fetch listStatus none =
        ([Action.fetchKeys bucketType bucket], some GoErr.decodeErr)) ∧
    (listStatus ≠ 404 → ∀ keys,
      (keysPhase backup backupStdout backupDir bucketType bucket fetch listStatus
        (some keys)).2 = none) ∧
    (syncBucketRun true backupStdout backupDir bucketType bucket srcProps destProps fetch
      404 dec).2 = none ∧
    ((syncProperties bucketType bucket srcProps destProps).2 = none →
      (syncBucketRun false backupStdout backupDir bucketType bucket srcProps destProps fetch
        404 dec).2 = none) := by
  have h404 : keysPhase backup backupStdout backupDir bucketType bucket fetch 404 dec =
      ([Action.fetchKeys bucketType bucket], none) := rfl
  refine ⟨h404, ?_, ?_, ?_, ?_⟩
  · intro h
    rw [keysPhase, if_neg h]
  · intro h keys
    rw [keysPhase, if_neg h]
  · show (keysPhase true backupStdout backupDir bucketType bucket fetch 404 dec).2 = none
    rfl
  · intro hp
    show (match (syncProperties bucketType bucket srcProps destProps).2 with
      | some e => ((syncProperties bucketType bucket srcProps destProps).1, some e)
      | none =>
        ((syncProperties bucketType bucket srcProps destProps).1 ++
          (keysPhase false backupStdout backupDir bucketType bucket fetch 404 dec).1,
         (keysPhase false backupStdout backupDir bucketType bucket fetch 404 dec).2)).2 = none
    rw [hp]
    rfl

/-- C7 (witness): concrete instances — backup mode with a 404 listing
yields the listing action alone with a nil error; a 500 listing with an
undecodable body is fatal; a 500 listing with a decodable body is not. -/
theorem c7_keysListing_witness :
    keysPhase true false [100] [116] [98] (fun _ => [49]) 404 (some [[120]]) =
      ([Action.fetchKeys [116] [98]], none) ∧
    keysPhase true false [100] [116] [98] (fun _ => [49]) 500 none =
      ([Action.fetchKeys [116] [98]], some GoErr.decodeErr) ∧
    (keysPhase true false [100] [116] [98] (fun _ => [49]) 500 (some [[120]])).2 = none := by
  have h := c7_keysListing true false [100] [116] [98] 200 204 (fun _ => [49]) 500
    (some [[120]])
  exact ⟨h.1, h.2.1 (by decide), h.2.2.1 (by decide) [[120]]⟩

/-- C8: properties synchronisation is gated and ordered as claimed with
one exception fixed by C7-style modelling: in live-sync mode the
properties actions happen exactly once (one fetch, at most one put) and
strictly before any key action, a properties error aborts the bucket
before the listing, backup modes issue no properties traffic at all and
the restore paths only issue key PUTs; a source 404 is a nil no-op
without a destination put, destination 204 and 400 are terminal
success, a source status other than 404 and 200 is fatal before the
put, and any other destination status is fatal. -/
theorem c8_syncProperties_gating (backupStdout : Bool) (backupDir bucketType bucket : GoStr)
    (srcProps destProps listStatus : Nat) (dec : Option (List GoStr)) (fetch : GoStr → GoStr) :
    ((syncProperties bucketType bucket srcProps destProps).2 = none →
      syncBucketRun false backupStdout backupDir bucketType bucket srcProps destProps fetch
        listStatus dec =
        ((syncProperties bucketType bucket srcProps destProps).1 ++
          (keysPhase false backupStdout backupDir bucketType bucket fetch listStatus dec).1,
         (keysPhase false backupStdout backupDir bucketType bucket fetch listStatus dec).2)) ∧
    (∀ e, (syncProperties bucketType bucket srcProps destProps).2 = some e →
      syncBucketRun false backupStdout backupDir bucketType bucket srcProps destProps fetch
        listStatus dec = ((syncProperties bucketType bucket srcProps destProps).1, some e)) ∧
    ((syncProperties bucketType bucket srcProps destProps).1 =
        [Action.fetchProps bucketType bucket] ∨
      (syncProperties bucketType bucket srcProps destProps).1 =
        [Action.fetchProps bucketType bucket, Action.putProps bucketType bucket]) ∧
    (∀ a ∈ (syncProperties bucketType bucket srcProps destProps).1, isKeyAction a = false) ∧
    (∀ a ∈ (keysPhase false backupStdout backupDir bucketType bucket fetch listStatus dec).1,
      isPropsAction a = false) ∧
    (∀ a ∈ (syncBucketRun true backupStdout backupDir bucketType bucket srcProps destProps
        fetch listStatus dec).1, isPropsAction a = false) ∧
    (∀ (files : List (GoStr × GoStr)) (destResp : PutReq → Nat),
      ∀ a ∈ ((restoreFromBackup files destResp).1.1.map fun pr =>
        Action.putKey pr.path pr.body), isPropsAction a = false) ∧
    (∀ (lines : List GoStr) (destResp : PutReq → Nat),
      ∀ a ∈ ((restoreFromStdin destResp lines).1.map fun pr =>
        Action.putKey pr.path pr.body), isPropsAction a = false) ∧
    syncProperties bucketType bucket 404 destProps =
      ([Action.fetchProps bucketType bucket], none) ∧
    (destProps = 204 ∨ destProps = 400 →
      syncProperties bucketType bucket 200 destProps =
        ([Action.fetchProps bucketType bucket, Action.putProps bucketType bucket], none)) ∧
    (srcProps ≠ 404 → srcProps ≠ 200 →
      syncProperties bucketType bucket srcProps destProps =
        ([Action.fetchProps bucketType bucket], some (GoErr.statusErr srcProps))) ∧
    (destProps ≠ 204 → destProps ≠ 400 →
      syncProperties bucketType bucket 200 destProps =
        ([Action.fetchProps bucketType bucket, Action.putProps bucketType bucket],
          some (GoErr.statusErr destProps))) := by
  refine ⟨?_, ?_, ?_, ?_, ?_, ?_, ?_, ?_, ?_, ?_, ?_, ?_⟩
  · intro hp
    show (match (syncProperties bucketType bucket srcProps destProps).2 with
      | some e => ((syncProperties bucketType bucket srcProps destProps).1, some e)
      | none =>
        ((syncProperties bucketType bucket srcProps destProps).1 ++
          (keysPhase false backupStdout backupDir bucketType bucket fetch listStatus dec).1,
         (keysPhase false backupStdout backupDir bucketType bucket fetch listStatus dec).2)) = _
    rw [hp]
  · intro e hp
    show (match (syncProperties bucketType bucket srcProps destProps).2 with
      | some e => ((syncProperties bucketType bucket srcProps destProps).1, some e)
      | none =>
        ((syncProperties bucketType bucket srcProps destProps).1 ++
          (keysPhase false backupStdout backupDir bucketType bucket fetch listStatus dec).1,
         (keysPhase false backupStdout backupDir bucketType bucket fetch listStatus dec).2)) = _
    rw [hp]
  · unfold syncProperties
    split_ifs
    · exact Or.inl rfl
    · exact Or.inl rfl
    · exact Or.inr rfl
    · exact Or.inr rfl
  · intro a ha
    unfold syncProperties at ha
    split_ifs at ha <;>
      simp only [List.mem_cons, List.not_mem_nil, or_false] at ha <;>
      rcases ha with rfl | rfl <;> rfl
  · exact keysPhase_no_props false backupStdout backupDir bucketType bucket fetch
      listStatus dec
  · intro a ha
    exact keysPhase_no_props true backupStdout backupDir bucketType bucket fetch
      listStatus dec a ha
  · intro files destResp a ha
    rcases List.mem_map.mp ha with ⟨pr, _, rfl⟩
    rfl
  · intro lines destResp a ha
    rcases List.mem_map.mp ha with ⟨pr, _, rfl⟩
    rfl
  · rfl
  · intro hd
    rcases hd with rfl | rfl <;> rfl
  · intro h404 h200
    unfold syncProperties
    rw [if_neg h404, if_pos h200]
  · intro h204 h400
    unfold syncProperties
    rw [if_neg (by decide : ¬(200 = 404)), if_neg (by simp : ¬(200 ≠ 200)),
      if_pos (And.intro h204 h400)]

/-- C8 (witness): concrete instances — a successful live bucket run
puts the properties actions first, a failing destination put aborts the
bucket before any key action, and the status table at 404, 204, 400,
500 and 503. -/
theorem c8_syncProperties_gating_witness :
    (syncBucketRun false false [100] [116] [98] 200 204 (fun _ => [49]) 200 (some [[120]]) =
      ((syncProperties [116] [98] 200 204).1 ++
        (keysPhase false false [100] [116] [98] (fun _ => [49]) 200 (some [[120]])).1,
       (keysPhase false false [100] [116] [98] (fun _ => [49]) 200 (some [[120]])).2)) ∧
    (syncBucketRun false false [100] [116] [98] 200 500 (fun _ => [49]) 200 (some [[120]]) =
      ((syncProperties [116] [98] 200 500).1, some (GoErr.statusErr 500))) ∧
    syncProperties [116] [98] 404 204 = ([Action.fetchProps [116] [98]], none) ∧
    syncProperties [116] [98] 200 400 =
      ([Action.fetchProps [116] [98], Action.putProps [116] [98]], none) ∧
    syncProperties [116] [98] 503 204 =
      ([Action.fetchProps [116] [98]], some (GoErr.statusErr 503)) ∧
    syncProperties [116] [98] 200 500 =
      ([Action.fetchProps [116] [98], Action.putProps [116] [98]],
        some (GoErr.statusErr 500)) := by
  refine ⟨?_, ?_, ?_, ?_, ?_, ?_⟩
  · exact (c8_syncProperties_gating false [100] [116] [98] 200 204 200 (some [[120]])
      (fun _ => [49])).1 (by decide)
  · exact (c8_syncProperties_gating false [100] [116] [98] 200 500 200 (some [[120]])
      (fun _ => [49])).2.1 (GoErr.statusErr 500) (by decide)
  · exact (c8_syncProperties_gating false [100] [116] [98] 404 204 200 (some [[120]])
      (fun _ => [49])).2.2.2.2.2.2.2.2.1
  · exact (c8_syncProperties_gating false [100] [116] [98] 200 400 200 (some [[120]])
      (fun _ => [49])).2.2.2.2.2.2.2.2.2.1 (Or.inr rfl)
  · exact (c8_syncProperties_gating false [100] [116] [98] 503 204 200 (some [[120]])
      (fun _ => [49])).2.2.2.2.2.2.2.2.2.2.1 (by decide) (by decide)
  · exact (c8_syncProperties_gating false [100] [116] [98] 503 500 200 (some [[120]])
      (fun _ => [49])).2.2.2.2.2.2.2.2.2.2.2 (by decide) (by decide)

/-- C4: evaluation of the skip-existing check at its failing input.  In
file-backup mode with skip-existing on a fresh backup root, syncBuckets
has just created backupRoot/bucketType (line 75), and the stat at line
87 joins only the root and the bucket type — the bucket name is not
part of the checked path.  With exactly that directory existing, the
loop for bucket "users" performs no actions at all (the bucket is
skipped, its keys neither listed nor fetched) even though the bucket's
own directory backupRoot/bucketType/users does not exist, contradicting
the claim that a bucket without its own backup directory is still
listed and transferred. -/
theorem c4_skipExisting_checksTypeDir :
    syncBucketsRun true true false [cleanJoin [98, 97, 99, 107, 117, 112] [[116]]]
      [98, 97, 99, 107, 117, 112] [116]
      (fun bucket => ([Action.fetchKeys [116] bucket], none))
      [[117, 115, 101, 114, 115]] = ([], none) ∧
    ([cleanJoin [98, 97, 99, 107, 117, 112] [[116]]].contains
      (cleanJoin [98, 97, 99, 107, 117, 112] [[116], [117, 115, 101, 114, 115]])) = false := by
  decide

/-- C5: evaluation of restore-from-backup at its failing input: a
backup with files backup/t/b/k1 and backup/t/b/k2 and a destination
answering 500.  The walk issues exactly one PUT (the second file is
never restored — the fail-fast half of the claim holds) and records the
error, but restoreFromBackup discards the WalkDir error and returns nil
(line 335), so try sees no error and the process exits 0 — not the
non-zero exit the claim and the spec require. -/
theorem c5_restoreFromBackup_discardsError :
    (restoreFromBackup
      [([98, 97, 99, 107, 117, 112, 47, 116, 47, 98, 47, 107, 49], [49]),
       ([98, 97, 99, 107, 117, 112, 47, 116, 47, 98, 47, 107, 50], [50])]
      (fun _ => 500)).1.1 = [PutReq.mk (keyPath [116] [98] [107, 49]) [49]] ∧
    (restoreFromBackup
      [([98, 97, 99, 107, 117, 112, 47, 116, 47, 98, 47, 107, 49], [49]),
       ([98, 97, 99, 107, 117, 112, 47, 116, 47, 98, 47, 107, 50], [50])]
      (fun _ => 500)).1.2 = some (GoErr.statusErr 500) ∧
    (restoreFromBackup
      [([98, 97, 99, 107, 117, 112, 47, 116, 47, 98, 47, 107, 49], [49]),
       ([98, 97, 99, 107, 117, 112, 47, 116, 47, 98, 47, 107, 50], [50])]
      (fun _ => 500)).2 = none ∧
    exitCodeAfterTry (restoreFromBackup
      [([98, 97, 99, 107, 117, 112, 47, 116, 47, 98, 47, 107, 49], [49]),
       ([98, 97, 99, 107, 117, 112, 47, 116, 47, 98, 47, 107, 50], [50])]
      (fun _ => 500)).2 = 0 := by
  decide

/-- C10: in restore-from-stream mode, end of input terminates the run
normally with a nil error; when every line decodes and every write is
accepted the run succeeds with one PUT per line (no line is dropped);
the first line that fails to decode aborts the run with the decode
error after exactly the preceding lines' PUTs, leaving the rest of the
stream unprocessed; and both the empty line and a blank line fail to
decode. -/
theorem c10_restoreFromStdin (destResp : PutReq → Nat)
    (hdest : ∀ pr, destResp pr = 200 ∨ destResp pr = 201 ∨ destResp pr = 204) :
    restoreFromStdin destResp [] = ([], none) ∧
    (∀ lines, (∀ l ∈ lines, (jsonDecodeKV l).isSome) →
      (restoreFromStdin destResp lines).2 = none ∧
      (restoreFromStdin destResp lines).1.length = lines.length) ∧
    (∀ pre bad post, (∀ l ∈ pre, (jsonDecodeKV l).isSome) → jsonDecodeKV bad = none →
      (restoreFromStdin destResp (pre ++ bad :: post)).2 = some GoErr.decodeErr ∧
      (restoreFromStdin destResp (pre ++ bad :: post)).1.length = pre.length) ∧
    jsonDecodeKV [] = none ∧
    jsonDecodeKV [32, 32] = none := by
  have part2 : ∀ lines, (∀ l ∈ lines, (jsonDecodeKV l).isSome) →
      (restoreFromStdin destResp lines).2 = none ∧
      (restoreFromStdin destResp lines).1.length = lines.length := by
    intro lines
    induction lines with
    | nil => intro _; exact ⟨rfl, rfl⟩
    | cons line rest ih =>
      intro h
      obtain ⟨kv, hkv⟩ := Option.isSome_iff_exists.mp (h line (List.mem_cons_self ..))
      have ihr := ih (fun l hl => h l (List.mem_cons_of_mem _ hl))
      rw [restoreFromStdin, hkv]
      rcases hdest (restorePutOfKV kv) with hst | hst | hst <;>
        simp [hst, ihr.1, ihr.2]
  have part3 : ∀ pre bad post, (∀ l ∈ pre, (jsonDecodeKV l).isSome) →
      jsonDecodeKV bad = none →
      (restoreFromStdin destResp (pre ++ bad :: post)).2 = some GoErr.decodeErr ∧
      (restoreFromStdin destResp (pre ++ bad :: post)).1.length = pre.length := by
    intro pre bad post hpre hbad
    induction pre with
    | nil =>
      rw [List.nil_append, restoreFromStdin, hbad]
      exact ⟨rfl, rfl⟩
    | cons line pre2 ih =>
      obtain ⟨kv, hkv⟩ := Option.isSome_iff_exists.mp (hpre line (List.mem_cons_self ..))
      have ihr := ih (fun l hl => hpre l (List.mem_cons_of_mem _ hl))
      rw [List.cons_append, restoreFromStdin, hkv]
      rcases hdest (restorePutOfKV kv) with hst | hst | hst <;>
        simp [hst, ihr.1, ihr.2]
  exact ⟨rfl, part2, part3, rfl, rfl⟩

/-- C10 (witness): with a destination that accepts everything — one
well-formed line restores with one PUT and a nil error; an empty first
line aborts at once with the decode error and zero PUTs, leaving a
following well-formed line unprocessed. -/
theorem c10_restoreFromStdin_witness :
    restoreFromStdin (fun _ => 200) [] = ([], none) ∧
    (restoreFromStdin (fun _ => 200)
      [jsonMarshalKV (KV.mk [116] [98] [107] [49])]).2 = none ∧
    (restoreFromStdin (fun _ => 200)
      [jsonMarshalKV (KV.mk [116] [98] [107] [49])]).1.length = 1 ∧
    (restoreFromStdin (fun _ => 200)
      ([] ++ [] :: [jsonMarshalKV (KV.mk [116] [98] [107] [49])])).2 =
      some GoErr.decodeErr ∧
    (restoreFromStdin (fun _ => 200)
      ([] ++ [] :: [jsonMarshalKV (KV.mk [116] [98] [107] [49])])).1.length = 0 := by
  have h := c10_restoreFromStdin (fun _ => 200) (fun _ => Or.inl rfl)
  have h2 := h.2.1 [jsonMarshalKV (KV.mk [116] [98] [107] [49])] (by decide)
  have h3 := h.2.2.1 [] [] [jsonMarshalKV (KV.mk [116] [98] [107] [49])]
    (by intro l hl; cases hl) (by decide)
  exact ⟨h.1, h2.1, h2.2, h3.1, h3.2⟩

/-- C6 (counterexample): in stream-backup mode the worker pool of
syncBucket runs regardless of the mode; with parallelism two and the
two keys a and c, a reachable schedule gives one key to each worker and
lets both workers issue their JSON-line write before either issues its
newline write.  The resulting stdout stream differs from the
concatenation of the two records' lines in either order, so the bytes
of different records' lines do interleave — the path is not a single
sequential writer. -/
theorem c6_counterexample :
    StdoutReachable2 [116] [98] (fun _ => [49]) [[97], [99]]
      (backupStdoutLine [116] [98] [97] [49] ++
        (backupStdoutLine [116] [98] [99] [49] ++ ([10] ++ ([10] ++ [])))) ∧
    backupStdoutLine [116] [98] [97] [49] ++
        (backupStdoutLine [116] [98] [99] [49] ++ ([10] ++ ([10] ++ []))) ≠
      (backupStdoutLine [116] [98] [97] [49] ++ [10]) ++
        (backupStdoutLine [116] [98] [99] [49] ++ [10]) ∧
    backupStdoutLine [116] [98] [97] [49] ++
        (backupStdoutLine [116] [98] [99] [49] ++ ([10] ++ ([10] ++ []))) ≠
      (backupStdoutLine [116] [98] [99] [49] ++ [10]) ++
        (backupStdoutLine [116] [98] [97] [49] ++ [10]) := by
  refine ⟨⟨[[97]], [[99]],
    [backupStdoutLine [116] [98] [97] [49], backupStdoutLine [116] [98] [99] [49],
      [10], [10]],
    Interleaving.left (Interleaving.right Interleaving.nil),
    Interleaving.left (Interleaving.right (Interleaving.left
      (Interleaving.right Interleaving.nil))),
    rfl⟩, by decide, by decide⟩

/-- C6 (amended): backup-to-stream is fed through the same worker pool
as the other sync paths (pool size is the parallel flag), each record
written to stdout as two separate write calls; records are emitted
without interleaving only in the single-worker schedule, where the
stream is exactly the concatenation of the record lines in listing
order. -/
theorem c6_singleWorkerStream (bucketType bucket : GoStr) (fetch : GoStr → GoStr)
    (keys : List GoStr) (s : GoStr)
    (h : s = (workerChunkSeq bucketType bucket fetch keys).flatten) :
    s = (keys.map (fun key => backupStdoutLine bucketType bucket key
      (fetch (destKeyURL bucketType bucket key)) ++ [10])).flatten := by
  subst h
  induction keys with
  | nil => rfl
  | cons k ks ih =>
    simp only [workerChunkSeq, List.flatMap_cons, List.map_cons, List.flatten_cons,
      List.flatten_append] at ih ⊢
    rw [ih]
    simp [List.append_assoc]

/-- C6 (witness): the single-worker stream for the one-key bucket. -/
theorem c6_singleWorkerStream_witness :
    (workerChunkSeq [116] [98] (fun _ => [49]) [[97]]).flatten =
      ([[97]].map (fun key => backupStdoutLine [116] [98] key [49] ++ [10])).flatten := by
  exact c6_singleWorkerStream [116] [98] (fun _ => [49]) [[97]] _ rfl

end RiakMigrator
